import Mathlib

/-!
Shallow embedding of the quill-resizable-table module
(src/src/ResizableTable.ts) for verifying its specification.

Pixel quantities (widths, heights, pointer coordinates, deltas) are
JavaScript numbers in the source; they are modelled as rationals.
Layout-measured quantities (offsetWidth, offsetHeight) are inputs of the
model: the model has no layout engine, so freshly created cells and rows
carry measurement 0 and structural edits leave stored measurements
unchanged.

The table-mutation methods call DOM primitives
(HTMLTableRowElement.insertCell / deleteCell,
HTMLTableElement.insertRow / deleteRow, Node.removeChild) whose
index-validation and exception behaviour is specified by the WHATWG HTML
and DOM standards; those primitives are embedded here as Except-valued
functions that raise the same errors the standard prescribes
(IndexSizeError for an index outside the permitted range, TypeError when
an undefined indexed access is passed where a Node is required).
-/

namespace QRT

/-- Configuration options with their defaults (interface
ResizableTableOptions and constant DEFAULTS in the source). -/
structure Options where
  handleSize : ℚ
  minColumnWidth : ℚ
  minRowHeight : ℚ
  minTableWidth : ℚ
  minTableHeight : ℚ
deriving Repr, DecidableEq

/-- The DEFAULTS constant of the source. -/
def DEFAULTS : Options :=
  { handleSize := 5
    minColumnWidth := 30
    minRowHeight := 20
    minTableWidth := 50
    minTableHeight := 30 }

/-- The Edge union type of the source: which boundary a drag resizes. -/
inductive Edge where
  | col
  | row
  | corner
deriving Repr, DecidableEq

/-- A table cell (td/th element): its colSpan and rowSpan attributes, its
layout-measured offsetWidth, and its innerHTML content. -/
structure Cell where
  colSpan : Nat
  rowSpan : Nat
  offsetWidth : ℚ
  content : String
deriving Repr, DecidableEq

/-- A table row (tr element): its cells, its layout-measured offsetHeight,
and its inline style height when one has been written. -/
structure Row where
  cells : List Cell
  offsetHeight : ℚ
  styleHeight : Option ℚ
deriving Repr, DecidableEq

/-- A col element of the colgroup overlay: its inline style width, when
one has been written (none models an empty style.width string). -/
structure Col where
  styleWidth : Option ℚ
deriving Repr, DecidableEq

/-- A table element: rows, the optional colgroup overlay (first child when
present), the inline style width, the layout-measured offsetWidth, and
whether style.tableLayout has been set to fixed. -/
structure Table where
  rows : List Row
  colgroup : Option (List Col)
  styleWidth : Option ℚ
  offsetWidth : ℚ
  tableLayoutFixed : Bool
deriving Repr, DecidableEq

/-- The freshly inserted empty cell of the mutation methods:
newCell.innerHTML is set to a line break; the DOM defaults its spans
to 1; its offsetWidth is layout-measured, modelled as 0. -/
def blankCell : Cell :=
  { colSpan := 1, rowSpan := 1, offsetWidth := 0, content := "<br>" }

/-- The expression (td.colSpan || 1) of the source. -/
def spanOf (c : Cell) : Nat :=
  if c.colSpan = 0 then 1 else c.colSpan

/-- The expression (td.rowSpan || 1) of the source. -/
def rowSpanOf (c : Cell) : Nat :=
  if c.rowSpan = 0 then 1 else c.rowSpan

/-- getCellColIndex: visual column index of the cell at position c in a
row, obtained by summing the colSpans of all preceding siblings. -/
def getCellColIndex (cells : List Cell) (c : Nat) : Nat :=
  ((cells.take c).map spanOf).sum

/-- getColumnCount: total number of visual columns in the first row. -/
def getColumnCount (t : Table) : Nat :=
  match t.rows with
  | [] => 0
  | firstRow :: _ => (firstRow.cells.map spanOf).sum

/-- getColumnWidths: per visual column, the width read from the first
row, a cell of span s contributing s copies of offsetWidth / s. -/
def getColumnWidths (t : Table) : List ℚ :=
  match t.rows with
  | [] => []
  | firstRow :: _ =>
      firstRow.cells.flatMap fun c =>
        List.replicate (spanOf c) (c.offsetWidth / (spanOf c : ℚ))

/-- getRowHeights: the offsetHeight of every row. -/
def getRowHeights (t : Table) : List ℚ :=
  t.rows.map fun r => r.offsetHeight

/-- The col-count synchronisation loops of applyColumnWidths: remove
trailing children while there are too many, append blank col elements
while there are too few. -/
def syncColCount (cols : List Col) (n : Nat) : List Col :=
  cols.take n ++ List.replicate (n - cols.length) { styleWidth := none }

/-- The assignment loop of applyColumnWidths: child i receives inline
width widths[i] for every i below widths.length. -/
def assignWidths (cols : List Col) (widths : List ℚ) : List Col :=
  List.zipWith (fun _ w => ({ styleWidth := some w } : Col)) cols widths
    ++ cols.drop widths.length

/-- applyColumnWidths: force fixed layout, set the table width to the sum
of the widths, create the colgroup when absent, synchronise its child
count to widths.length and write each width. -/
def applyColumnWidths (t : Table) (widths : List ℚ) : Table :=
  let cg := t.colgroup.getD []
  let cg := syncColCount cg widths.length
  let cg := assignWidths cg widths
  { t with
    tableLayoutFixed := true
    styleWidth := some widths.sum
    colgroup := some cg }

/-- applyRowHeights: row i receives inline height heights[i] for every i
below both lengths; remaining rows are untouched. -/
def applyRowHeights (t : Table) (heights : List ℚ) : Table :=
  { t with
    rows :=
      List.zipWith (fun r h => { r with styleHeight := some h }) t.rows heights
        ++ t.rows.drop heights.length }

/-- parseFloat on a col style width, with the source fallback of 0 for an
empty style (the expression w ? parseFloat(w) : 0). -/
def colWidthOrZero (c : Col) : ℚ :=
  match c.styleWidth with
  | none => 0
  | some w => w

/-- resizeColumnDirect: ensure a colgroup exists (initialised from the
measured column widths when created), pad it with blank col elements up
to colIndex + 1 children, write newWidth on child colIndex, and set the
table width to the sum of all parsed col widths. -/
def resizeColumnDirect (t : Table) (colIndex : Nat) (newWidth : ℚ) : Table :=
  let cg :=
    match t.colgroup with
    | some cg => cg
    | none => (getColumnWidths t).map fun w => ({ styleWidth := some w } : Col)
  let cg := cg ++ List.replicate (colIndex + 1 - cg.length) ({ styleWidth := none } : Col)
  let cg := cg.set colIndex { styleWidth := some newWidth }
  { t with
    tableLayoutFixed := true
    colgroup := some cg
    styleWidth := some (cg.map colWidthOrZero).sum }

/-- The bounding client rect data detectEdge reads from the hovered
cell. -/
structure Rect where
  right : ℚ
  bottom : ℚ
deriving Repr, DecidableEq

/-- detectEdge: hit-test pointer (x, y) against the cell at row index r,
cell index c, whose bounding rect is given. Returns the classified edge
with the affected column and row indices, or none off any boundary.
The last-column and last-row tests compare span-adjusted indices in ℤ,
as JavaScript arithmetic does. -/
def detectEdge (o : Options) (t : Table) (r c : Nat) (rect : Rect)
    (x y : ℚ) : Option (Edge × Nat × Nat) :=
  match t.rows[r]? with
  | none => none
  | some theRow =>
    match theRow.cells[c]? with
    | none => none
    | some td =>
      let hs := o.handleSize
      let nearRight : Bool := decide (rect.right - hs ≤ x)
      let nearBottom : Bool := decide (rect.bottom - hs ≤ y)
      if ¬nearRight ∧ ¬nearBottom then none
      else
        let colIndex := getCellColIndex theRow.cells c
        let rowIndex := r
        if nearRight ∧ nearBottom then
          let isLastCol : Bool :=
            decide ((colIndex : ℤ) + (spanOf td : ℤ) - 1 = (getColumnCount t : ℤ) - 1)
          let isLastRow : Bool :=
            decide ((rowIndex : ℤ) + (rowSpanOf td : ℤ) - 1 = (t.rows.length : ℤ) - 1)
          if isLastCol ∧ isLastRow then
            some (Edge.corner, colIndex, rowIndex)
          else
            some (Edge.col, colIndex + spanOf td - 1, rowIndex)
        else if nearRight then
          some (Edge.col, colIndex + spanOf td - 1, rowIndex)
        else
          some (Edge.row, colIndex, rowIndex + rowSpanOf td - 1)

/-- The DragState snapshot taken on mousedown (minus the fields the move
handler never reads back: start coordinates are folded into the deltas
dx, dy that onDocumentMouseMove computes from them). -/
structure DragState where
  edge : Edge
  colIndex : Nat
  rowIndex : Nat
  colWidths : List ℚ
  rowHeights : List ℚ
deriving Repr, DecidableEq

/-- onDocumentMouseMove during a drag: for a col or corner edge, clamp
the snapshot width plus dx to the minimum column width and apply it to
the single target column; for a row or corner edge, clamp the snapshot
height plus dy to the minimum row height and apply the updated heights
array. -/
def dragMove (o : Options) (d : DragState) (t : Table) (dx dy : ℚ) : Table :=
  let t1 :=
    if d.edge = Edge.col ∨ d.edge = Edge.corner then
      let newWidth := max o.minColumnWidth (d.colWidths.getD d.colIndex 0 + dx)
      resizeColumnDirect t d.colIndex newWidth
    else t
  if d.edge = Edge.row ∨ d.edge = Edge.corner then
    let newHeight := max o.minRowHeight (d.rowHeights.getD d.rowIndex 0 + dy)
    let updated := d.rowHeights.set d.rowIndex newHeight
    applyRowHeights t1 updated
  else t1

/-- HTMLTableRowElement.insertCell(index), per the HTML standard: throws
IndexSizeError when index is below -1 or above the cell count; -1
appends; otherwise inserts before the cell at index. -/
def insertCellAt (cells : List Cell) (idx : Int) (c : Cell) :
    Except String (List Cell) :=
  if idx < -1 ∨ (cells.length : ℤ) < idx then
    .error "IndexSizeError"
  else if idx = -1 then
    .ok (cells ++ [c])
  else
    .ok (cells.insertIdx idx.toNat c)

/-- HTMLTableRowElement.deleteCell(index), per the HTML standard: throws
IndexSizeError when index is below -1 or at least the cell count; -1
removes the last cell (or nothing when there are none); otherwise
removes the cell at index. -/
def deleteCellAt (cells : List Cell) (idx : Int) :
    Except String (List Cell) :=
  if idx = -1 then
    .ok cells.dropLast
  else if idx < -1 ∨ (cells.length : ℤ) ≤ idx then
    .error "IndexSizeError"
  else
    .ok (cells.eraseIdx idx.toNat)

/-- HTMLTableElement.insertRow(index), per the HTML standard: throws
IndexSizeError when index is below -1 or above the row count; -1
appends; otherwise inserts before the row at index. -/
def insertRowAt (rows : List Row) (idx : Int) (r : Row) :
    Except String (List Row) :=
  if idx < -1 ∨ (rows.length : ℤ) < idx then
    .error "IndexSizeError"
  else if idx = -1 then
    .ok (rows ++ [r])
  else
    .ok (rows.insertIdx idx.toNat r)

/-- HTMLTableElement.deleteRow(index), per the HTML standard: throws
IndexSizeError when index is below -1 or at least the row count; -1
removes the last row (or nothing when there are none); otherwise removes
the row at index. -/
def deleteRowAt (rows : List Row) (idx : Int) :
    Except String (List Row) :=
  if idx = -1 then
    .ok rows.dropLast
  else if idx < -1 ∨ (rows.length : ℤ) ≤ idx then
    .error "IndexSizeError"
  else
    .ok (rows.eraseIdx idx.toNat)

/-- The for-loop over table.rows shared by the column mutations: apply f
to each row in order, propagating a DOM exception as the loop body
would. -/
def eachRow (f : Row → Except String Row) : List Row → Except String (List Row)
  | [] => .ok []
  | r :: rs => do
      let r2 ← f r
      let rs2 ← eachRow f rs
      pure (r2 :: rs2)

/-- insertColumn: resolve the target position (colIndex or colIndex + 1);
in every row insert one blank cell at min(targetIndex, cell count); when
a colgroup exists, insert one col of the minimum column width at
targetIndex (appending when targetIndex is not below the child count —
for a negative targetIndex the indexed access is undefined, which
insertBefore coerces to null, an append) and grow the table style width
by the minimum column width over the measured offsetWidth.
position=true models the string after, false models before. -/
def insertColumn (o : Options) (t : Table) (colIndex : Int)
    (after : Bool) : Except String Table :=
  let targetIndex : Int := if after then colIndex + 1 else colIndex
  do
    let rows2 ← eachRow (fun r => do
      let cells2 ← insertCellAt r.cells (min targetIndex (r.cells.length : ℤ)) blankCell
      pure { r with cells := cells2 }) t.rows
    match t.colgroup with
    | some cg =>
        let newCol : Col := { styleWidth := some o.minColumnWidth }
        let cg2 :=
          if targetIndex < (cg.length : ℤ) ∧ 0 ≤ targetIndex then
            cg.insertIdx targetIndex.toNat newCol
          else
            cg ++ [newCol]
        pure { t with
          rows := rows2
          colgroup := some cg2
          styleWidth := some (t.offsetWidth + o.minColumnWidth) }
    | none =>
        pure { t with rows := rows2 }

/-- parseInt(style.width, 10) || minColumnWidth of deleteColumn: an
unset width (NaN) and a width that truncates to 0 both fall back to the
minimum column width; parseInt truncates toward zero, which for a
rational w with positive denominator is num.tdiv den. -/
def colWidthOrMin (o : Options) (c : Col) : ℚ :=
  match c.styleWidth with
  | none => o.minColumnWidth
  | some w =>
      let n : ℤ := w.num.tdiv (w.den : ℤ)
      if n = 0 then o.minColumnWidth else (n : ℚ)

/-- deleteColumn: no-op when at most one visual column remains; otherwise
delete the cell at colIndex from every row that has more than colIndex
cells; when a colgroup exists and colIndex is below its child count,
remove that child (for a negative colIndex the indexed access is
undefined and removeChild throws a TypeError) and recompute the table
style width as the sum of the remaining parsed col widths. -/
def deleteColumn (o : Options) (t : Table) (colIndex : Int) :
    Except String Table :=
  if getColumnCount t ≤ 1 then .ok t
  else do
    let rows2 ← eachRow (fun r =>
      if colIndex < (r.cells.length : ℤ) then do
        let cells2 ← deleteCellAt r.cells colIndex
        pure { r with cells := cells2 }
      else pure r) t.rows
    match t.colgroup with
    | some cg =>
        if colIndex < (cg.length : ℤ) then
          if colIndex < 0 then
            .error "TypeError"
          else
            let cg2 := cg.eraseIdx colIndex.toNat
            pure { t with
              rows := rows2
              colgroup := some cg2
              styleWidth := some (cg2.map (colWidthOrMin o)).sum }
        else
          pure { t with rows := rows2 }
    | none =>
        pure { t with rows := rows2 }

/-- insertRow: resolve the target position (rowIndex or rowIndex + 1),
insert a new row at min(targetIndex, row count) and append one blank
cell per visual column to it. position=true models after. -/
def insertRow (t : Table) (rowIndex : Int) (after : Bool) :
    Except String Table :=
  let targetIndex : Int := if after then rowIndex + 1 else rowIndex
  let colCount := getColumnCount t
  let newRow : Row :=
    { cells := List.replicate colCount blankCell
      offsetHeight := 0
      styleHeight := none }
  do
    let rows2 ← insertRowAt t.rows (min targetIndex (t.rows.length : ℤ)) newRow
    pure { t with rows := rows2 }

/-- deleteRow: no-op when at most one row remains; otherwise delete the
row at rowIndex through the DOM primitive. -/
def deleteRow (t : Table) (rowIndex : Int) : Except String Table :=
  if t.rows.length ≤ 1 then .ok t
  else do
    let rows2 ← deleteRowAt t.rows rowIndex
    pure { t with rows := rows2 }

/-- The action closure bound to a context-menu item: the mutation it
invokes on the table, with the cell indices it captured at open time. -/
inductive TAction where
  | insColBefore (colIndex : Nat)
  | insColAfter (colIndex : Nat)
  | delCol (colIndex : Nat)
  | insRowBefore (rowIndex : Nat)
  | insRowAfter (rowIndex : Nat)
  | delRow (rowIndex : Nat)
  | delTable
deriving Repr, DecidableEq

/-- One entry of the items array of showContextMenu. -/
structure MenuItem where
  label : String
  action : TAction
  dividerAfter : Bool := false
  disabled : Bool := false
deriving Repr, DecidableEq

/-- The items array of showContextMenu, built from the clicked cell's
indices and the current column and row counts. -/
def contextMenuItems (colIndex rowIndex colCount rowCount : Nat) :
    List MenuItem :=
  [ { label := "Insert Column Left", action := .insColBefore colIndex },
    { label := "Insert Column Right", action := .insColAfter colIndex },
    { label := "Delete Column", action := .delCol colIndex,
      dividerAfter := true, disabled := decide (colCount ≤ 1) },
    { label := "Insert Row Above", action := .insRowBefore rowIndex },
    { label := "Insert Row Below", action := .insRowAfter rowIndex },
    { label := "Delete Row", action := .delRow rowIndex,
      dividerAfter := true, disabled := decide (rowCount ≤ 1) },
    { label := "Delete Table", action := .delTable } ]

/-- The per-instance UI state the menu layer touches: the table the menu
is bound to, whether that table is still attached to the document, and
the open context menu (none when dismissed). -/
structure UIState where
  table : Table
  tableAttached : Bool
  contextMenu : Option (List MenuItem)
deriving Repr, DecidableEq

/-- showContextMenu opened from the cell at row r, cell position c: any
previous menu is dismissed first, and the new menu holds the seven items
with indices and counts computed from that cell and table. -/
def showContextMenu (s : UIState) (r c : Nat) : UIState :=
  let cells := ((s.table.rows[r]?).map Row.cells).getD []
  { s with
    contextMenu := some (contextMenuItems
      (getCellColIndex cells c) r
      (getColumnCount s.table) s.table.rows.length) }

/-- Run a menu action closure against the UI state (deleteTable detaches
the table from the document). -/
def runAction (o : Options) (a : TAction) (s : UIState) :
    Except String UIState :=
  match a with
  | .insColBefore ci => do
      let t2 ← insertColumn o s.table (ci : Int) false
      pure { s with table := t2 }
  | .insColAfter ci => do
      let t2 ← insertColumn o s.table (ci : Int) true
      pure { s with table := t2 }
  | .delCol ci => do
      let t2 ← deleteColumn o s.table (ci : Int)
      pure { s with table := t2 }
  | .insRowBefore ri => do
      let t2 ← insertRow s.table (ri : Int) false
      pure { s with table := t2 }
  | .insRowAfter ri => do
      let t2 ← insertRow s.table (ri : Int) true
      pure { s with table := t2 }
  | .delRow ri => do
      let t2 ← deleteRow s.table (ri : Int)
      pure { s with table := t2 }
  | .delTable =>
      pure { s with tableAttached := false }

/-- The mousedown handler of a menu item: attached only to enabled
items, it runs the action and then dismisses the menu; a disabled item
has no handler, so invoking it changes nothing here. -/
def invokeMenuItem (o : Options) (it : MenuItem) (s : UIState) :
    Except String UIState :=
  if it.disabled then .ok s
  else do
    let s2 ← runAction o it.action s
    pure { s2 with contextMenu := none }

/-- The cell markup of insertNewTable. -/
def cellHTML : String := "<td><br></td>"

/-- The row markup of insertNewTable: cellHTML repeated cols times
inside a tr (String.repeat modelled as joining a replicated list). -/
def rowHTML (cols : Nat) : String :=
  "<tr>" ++ String.join (List.replicate cols cellHTML) ++ "</tr>"

/-- The table markup of insertNewTable: rowHTML repeated rows times
inside a table body. -/
def tableHTML (rows cols : Nat) : String :=
  "<table><tbody>" ++ String.join (List.replicate rows (rowHTML cols)) ++ "</tbody></table>"

/-- insertNewTable: with no current selection (getSelection absent or
returning null) nothing is pasted; otherwise the table markup is pasted
at the selection index. The result records the paste performed, none
meaning the document is left unchanged. -/
def insertNewTable (sel : Option Nat) (rows : Nat := 3) (cols : Nat := 3) :
    Option (Nat × String) :=
  match sel with
  | none => none
  | some range => some (range, tableHTML rows cols)

/-- The colgroup synchronisation invariant of the spec: when a colgroup
is present its child count equals the visual column count. -/
def colgroupSync (t : Table) : Prop :=
  match t.colgroup with
  | none => True
  | some cg => cg.length = getColumnCount t

end QRT

open QRT

/-- A span-one cell of the given measured width and content, as the
sample tables of the test suite use. -/
def mkCell (w : ℚ) (s : String) : Cell :=
  { colSpan := 1, rowSpan := 1, offsetWidth := w, content := s }

/-- A sample row of 100px-wide span-one cells. -/
def sampleRow (names : List String) : Row :=
  { cells := names.map (mkCell 100), offsetHeight := 30, styleHeight := none }

/-- The 2-by-3 sample table of the test suite, without a colgroup. -/
def tPlain : Table :=
  { rows := [sampleRow ["A1", "B1", "C1"], sampleRow ["A2", "B2", "C2"]]
    colgroup := none
    styleWidth := none
    offsetWidth := 300
    tableLayoutFixed := false }

/-- The same sample table with a 3-entry colgroup of 100px cols. -/
def tCg : Table :=
  { tPlain with colgroup := some (List.replicate 3 { styleWidth := some 100 }) }

/-- The sample drag session: corner drag from the first cell of the
sample table, with snapshot widths 100,100,100 and heights 30,30. -/
def dW : DragState :=
  { edge := Edge.corner, colIndex := 0, rowIndex := 0
    colWidths := [100, 100, 100], rowHeights := [30, 30] }

/-- A wide cell spanning two visual columns. -/
def wideCell : Cell :=
  { colSpan := 2, rowSpan := 1, offsetWidth := 200, content := "A" }

/-- A one-row table whose first cell spans two columns (3 visual columns
in total) with a synchronised 3-entry colgroup. -/
def tSpan : Table :=
  { rows := [{ cells := [wideCell, mkCell 100 "B"], offsetHeight := 30, styleHeight := none }]
    colgroup := some (List.replicate 3 { styleWidth := some 100 })
    styleWidth := none
    offsetWidth := 300
    tableLayoutFixed := false }

/-- The UI state used by the menu scenarios: the sample table attached,
no menu open. -/
def sC8 : UIState :=
  { table := tPlain, tableAttached := true, contextMenu := none }

/-- The configuration differing from the defaults only in the two table
minimums. -/
def oTweaked : Options :=
  { DEFAULTS with minTableWidth := 999, minTableHeight := 777 }

namespace QRT

theorem bind_ok {α β : Type} (a : α) (k : α → Except String β) :
    (Except.ok a >>= k) = k a := rfl

theorem eachRow_ok {f : Row → Except String Row} {g : Row → Row} :
    ∀ rows : List Row, (∀ r ∈ rows, f r = .ok (g r)) →
      eachRow f rows = .ok (rows.map g)
  | [], _ => rfl
  | r :: rs, h => by
      have h1 : f r = .ok (g r) := h r (by simp)
      have h2 : eachRow f rs = .ok (rs.map g) :=
        eachRow_ok rs fun x hx => h x (by simp [hx])
      simp only [eachRow, h1, h2, bind_ok, List.map_cons]
      rfl

theorem targetIndex_natCast (i : Nat) (after : Bool) :
    (if after then (i : ℤ) + 1 else (i : ℤ)) =
      ((if after then i + 1 else i : Nat) : ℤ) := by
  cases after <;> simp

theorem min_natCast_int (a b : Nat) :
    min (a : ℤ) (b : ℤ) = ((min a b : Nat) : ℤ) :=
  (Nat.cast_min a b).symm

theorem insertCellAt_natCast (cells : List Cell) (n : Nat) (c : Cell)
    (h : n ≤ cells.length) :
    insertCellAt cells (n : Int) c = .ok (cells.insertIdx n c) := by
  unfold insertCellAt
  rw [if_neg, if_neg]
  · simp
  · omega
  · push_neg
    constructor <;> omega

theorem insertRowAt_natCast (rows : List Row) (n : Nat) (r : Row)
    (h : n ≤ rows.length) :
    insertRowAt rows (n : Int) r = .ok (rows.insertIdx n r) := by
  unfold insertRowAt
  rw [if_neg, if_neg]
  · simp
  · omega
  · push_neg
    constructor <;> omega

theorem deleteCellAt_natCast (cells : List Cell) (n : Nat)
    (h : n < cells.length) :
    deleteCellAt cells (n : Int) = .ok (cells.eraseIdx n) := by
  unfold deleteCellAt
  rw [if_neg, if_neg]
  · simp
  · push_neg
    constructor <;> omega
  · omega

theorem deleteRowAt_natCast (rows : List Row) (n : Nat)
    (h : n < rows.length) :
    deleteRowAt rows (n : Int) = .ok (rows.eraseIdx n) := by
  unfold deleteRowAt
  rw [if_neg, if_neg]
  · simp
  · push_neg
    constructor <;> omega
  · omega

theorem insertIdx_min_eq (cg : List Col) (n : Nat) (newCol : Col) :
    (if (n : ℤ) < (cg.length : ℤ) ∧ 0 ≤ (n : ℤ) then
        cg.insertIdx (n : ℤ).toNat newCol
      else cg ++ [newCol]) =
      cg.insertIdx (min n cg.length) newCol := by
  by_cases hlt : n < cg.length
  · rw [if_pos ⟨by exact_mod_cast hlt, by positivity⟩]
    simp [Nat.min_eq_left (Nat.le_of_lt hlt)]
  · rw [if_neg (by push_neg; intro hc; omega)]
    rw [Nat.min_eq_right (by omega), List.insertIdx_length_self]

theorem eachRow_insertCell (ti : Nat) (rows : List Row) :
    eachRow (fun r => do
      let cells2 ← insertCellAt r.cells (min (ti : ℤ) (r.cells.length : ℤ)) blankCell
      pure { r with cells := cells2 }) rows
    = .ok (rows.map fun r => { r with cells := r.cells.insertIdx (min ti r.cells.length) blankCell }) := by
  apply eachRow_ok
  intro r _
  dsimp only
  rw [min_natCast_int, insertCellAt_natCast _ _ _ (Nat.min_le_right _ _)]
  rfl

/-- Closed form of insertColumn at a nonnegative index: it always
succeeds, inserts one blank cell into every row at the clamped target
position, and, when a colgroup exists, inserts one minimum-width col at
the clamped target position and rewrites the table width. -/
theorem insertColumn_ok (o : Options) (t : Table) (i : Nat) (after : Bool) :
    insertColumn o t (i : Int) after = .ok
      { t with
        rows := t.rows.map fun r => { r with cells := r.cells.insertIdx (min (if after then i + 1 else i) r.cells.length) blankCell }
        colgroup := t.colgroup.map fun cg => cg.insertIdx (min (if after then i + 1 else i) cg.length) { styleWidth := some o.minColumnWidth }
        styleWidth :=
          match t.colgroup with
          | some _ => some (t.offsetWidth + o.minColumnWidth)
          | none => t.styleWidth } := by
  obtain ⟨rows, cgOpt, sw, ow, fl⟩ := t
  unfold insertColumn
  rw [targetIndex_natCast]
  simp only [eachRow_insertCell, bind_ok]
  cases cgOpt with
  | none => rfl
  | some cg =>
      simp only [Option.map_some]
      rw [insertIdx_min_eq]
      rfl

theorem eachRow_deleteCell (i : Nat) (rows : List Row) :
    eachRow (fun r =>
      if (i : ℤ) < (r.cells.length : ℤ) then do
        let cells2 ← deleteCellAt r.cells (i : ℤ)
        pure { r with cells := cells2 }
      else pure r) rows
    = .ok (rows.map fun r => if i < r.cells.length then { r with cells := r.cells.eraseIdx i } else r) := by
  apply eachRow_ok
  intro r _
  dsimp only
  by_cases h : i < r.cells.length
  · rw [if_pos (by exact_mod_cast h), if_pos h, deleteCellAt_natCast _ _ h]
    rfl
  · rw [if_neg (by exact_mod_cast h), if_neg h]
    rfl

/-- Closed form of deleteColumn at a nonnegative index on a table with at
least two visual columns: it always succeeds, erases the cell at the
index from every row long enough, and, when a colgroup with more than
index children exists, erases that child and recomputes the width. -/
theorem deleteColumn_ok (o : Options) (t : Table) (i : Nat)
    (h : 2 ≤ getColumnCount t) :
    deleteColumn o t (i : Int) = .ok
      { t with
        rows := t.rows.map fun r => if i < r.cells.length then { r with cells := r.cells.eraseIdx i } else r
        colgroup := t.colgroup.map fun cg => if i < cg.length then cg.eraseIdx i else cg
        styleWidth :=
          match t.colgroup with
          | some cg => if i < cg.length then some ((cg.eraseIdx i).map (colWidthOrMin o)).sum else t.styleWidth
          | none => t.styleWidth } := by
  obtain ⟨rows, cgOpt, sw, ow, fl⟩ := t
  unfold deleteColumn
  rw [if_neg (by omega)]
  simp only [eachRow_deleteCell, bind_ok]
  cases cgOpt with
  | none => rfl
  | some cg =>
      dsimp only
      by_cases hlt : i < cg.length
      · rw [if_pos (by exact_mod_cast hlt : (i : ℤ) < (cg.length : ℤ)),
          if_neg (by omega : ¬((i : ℤ) < 0))]
        simp only [Option.map, Int.toNat_natCast, if_pos hlt]
        rfl
      · rw [if_neg (by exact_mod_cast hlt : ¬((i : ℤ) < (cg.length : ℤ)))]
        simp only [Option.map, if_neg hlt]
        rfl

/-- deleteColumn is the identity on a table with at most one visual
column. -/
theorem deleteColumn_noop (o : Options) (t : Table) (i : Int)
    (h : getColumnCount t ≤ 1) :
    deleteColumn o t i = .ok t := by
  unfold deleteColumn
  rw [if_pos h]

theorem insertRowAt_min (rows : List Row) (ti : Nat) (r : Row) :
    insertRowAt rows (min (ti : ℤ) (rows.length : ℤ)) r =
      .ok (rows.insertIdx (min ti rows.length) r) := by
  rw [min_natCast_int]
  exact insertRowAt_natCast _ _ _ (Nat.min_le_right _ _)

/-- Closed form of insertRow at a nonnegative index: it always succeeds
and inserts, at the clamped target position, one new row holding one
blank cell per visual column. -/
theorem insertRow_ok (t : Table) (i : Nat) (after : Bool) :
    insertRow t (i : Int) after = .ok
      { t with rows := t.rows.insertIdx (min (if after then i + 1 else i) t.rows.length) { cells := List.replicate (getColumnCount t) blankCell, offsetHeight := 0, styleHeight := none } } := by
  obtain ⟨rows, cgOpt, sw, ow, fl⟩ := t
  unfold insertRow
  rw [targetIndex_natCast]
  simp only [insertRowAt_min, bind_ok]
  rfl

/-- deleteRow is the identity on a table with at most one row. -/
theorem deleteRow_noop (t : Table) (i : Int) (h : t.rows.length ≤ 1) :
    deleteRow t i = .ok t := by
  unfold deleteRow
  rw [if_pos h]

/-- Closed form of deleteRow at an in-range index on a multi-row table:
it succeeds and erases the row. -/
theorem deleteRow_ok (t : Table) (i : Nat) (h2 : 2 ≤ t.rows.length)
    (hi : i < t.rows.length) :
    deleteRow t (i : Int) = .ok { t with rows := t.rows.eraseIdx i } := by
  unfold deleteRow
  rw [if_neg (by omega)]
  rw [deleteRowAt_natCast _ _ hi, bind_ok]
  rfl

/-- deleteRow raises IndexSizeError for an out-of-range nonnegative
index on a multi-row table. -/
theorem deleteRow_err (t : Table) (i : Nat) (h2 : 2 ≤ t.rows.length)
    (hi : t.rows.length ≤ i) :
    deleteRow t (i : Int) = .error "IndexSizeError" := by
  unfold deleteRow
  rw [if_neg (by omega)]
  unfold deleteRowAt
  have h1 : ¬((i : ℤ) = -1) := by omega
  have hor : ((i : ℤ) < -1 ∨ (t.rows.length : ℤ) ≤ (i : ℤ)) := Or.inr (by exact_mod_cast hi)
  rw [if_neg h1, if_pos hor]
  rfl

theorem flatMap_replicate_length {α : Type} (f : Cell → α) :
    ∀ cells : List Cell,
      (cells.flatMap fun c => List.replicate (spanOf c) (f c)).length =
        (cells.map spanOf).sum
  | [] => rfl
  | c :: cs => by
      simp [List.flatMap_cons, flatMap_replicate_length f cs]

/-- The snapshot read by getColumnWidths has one entry per visual
column. -/
theorem getColumnWidths_length (t : Table) :
    (getColumnWidths t).length = getColumnCount t := by
  unfold getColumnWidths getColumnCount
  cases t.rows with
  | nil => rfl
  | cons r rs => exact flatMap_replicate_length _ r.cells

theorem syncColCount_length (cols : List Col) (n : Nat) :
    (syncColCount cols n).length = n := by
  simp [syncColCount]
  omega

theorem assignWidths_length (cols : List Col) (widths : List ℚ) :
    (assignWidths cols widths).length = cols.length := by
  simp [assignWidths]
  omega

theorem map_insertIdx {α β : Type} (f : α → β) (a : α) :
    ∀ (n : Nat) (l : List α), n ≤ l.length →
      (l.insertIdx n a).map f = (l.map f).insertIdx n (f a)
  | 0, l, _ => by simp [List.insertIdx_zero]
  | n + 1, [], h => by simp at h
  | n + 1, x :: xs, h => by
      simp only [List.insertIdx_succ_cons, List.map_cons]
      rw [map_insertIdx f a n xs (by simpa using h)]

theorem sum_insertIdx (x : Nat) :
    ∀ (n : Nat) (l : List Nat), n ≤ l.length →
      (l.insertIdx n x).sum = l.sum + x
  | 0, l, _ => by simp [List.insertIdx_zero]; omega
  | n + 1, [], h => by simp at h
  | n + 1, y :: ys, h => by
      simp only [List.insertIdx_succ_cons, List.sum_cons]
      rw [sum_insertIdx x n ys (by simpa using h)]
      omega

theorem sum_map_all_one {α : Type} (f : α → Nat) :
    ∀ l : List α, (∀ c ∈ l, f c = 1) → (l.map f).sum = l.length
  | [], _ => rfl
  | x :: xs, h => by
      simp only [List.map_cons, List.sum_cons, List.length_cons]
      rw [h x (by simp), sum_map_all_one f xs fun c hc => h c (by simp [hc])]
      omega

/-- resizeColumnDirect leaves the rows untouched: only the colgroup and
the table style change. -/
theorem resizeColumnDirect_rows (t : Table) (c : Nat) (w : ℚ) :
    (resizeColumnDirect t c w).rows = t.rows := rfl

/-- resizeColumnDirect produces a colgroup whose child at the target
index carries exactly the new width, the colgroup being the previous one
(or one freshly initialised from measured widths) padded to at least
c + 1 children. -/
theorem resizeColumnDirect_spec (t : Table) (c : Nat) (w : ℚ) :
    ∃ cg, (resizeColumnDirect t c w).colgroup = some cg ∧
      cg[c]? = some { styleWidth := some w } ∧
      cg.length = max (c + 1)
        (t.colgroup.getD ((getColumnWidths t).map fun v => ({ styleWidth := some v } : Col))).length := by
  unfold resizeColumnDirect
  refine ⟨_, rfl, ?_, ?_⟩
  · apply List.getElem?_set_self
    simp only [List.length_append, List.length_replicate]
    cases t.colgroup <;> dsimp only [Option.getD] <;> omega
  · simp only [List.length_set, List.length_append, List.length_replicate]
    cases t.colgroup <;> dsimp only [Option.getD] <;> omega

/-- applyRowHeights leaves the colgroup untouched. -/
theorem applyRowHeights_colgroup (t : Table) (hs : List ℚ) :
    (applyRowHeights t hs).colgroup = t.colgroup := rfl

/-- applyRowHeights preserves the row count. -/
theorem applyRowHeights_length (t : Table) (hs : List ℚ) :
    (applyRowHeights t hs).rows.length = t.rows.length := by
  simp [applyRowHeights]
  omega

/-- The row at an index covered by both lists receives exactly the
corresponding height as its inline style. -/
theorem applyRowHeights_get (t : Table) (hs : List ℚ) (i : Nat)
    (h1 : i < t.rows.length) (h2 : i < hs.length) :
    (applyRowHeights t hs).rows[i]? =
      some { t.rows.get ⟨i, h1⟩ with styleHeight := some (hs.get ⟨i, h2⟩) } := by
  unfold applyRowHeights
  dsimp only
  rw [List.getElem?_append_left (by simp [List.length_zipWith]; omega)]
  rw [List.getElem?_zipWith']
  rw [List.getElem?_eq_getElem h1, List.getElem?_eq_getElem h2]
  rfl

end QRT

open QRT


/-- C1: for every table and row-cell index i, insertColumn after i
succeeds, keeps the row count, gives every row exactly one more cell,
inserted immediately after position i (clamped to the end of shorter
rows), and, when a colgroup exists, gives it exactly one more entry at
that same clamped position. -/
theorem insertColumn_after_spec (o : Options) (t : Table) (i : Nat) :
    ∃ t2, insertColumn o t (i : Int) true = .ok t2 ∧
      t2.rows.length = t.rows.length ∧
      (∀ (j : Nat) (r : Row), t.rows[j]? = some r →
        t2.rows[j]? = some { r with cells := r.cells.insertIdx (min (i + 1) r.cells.length) blankCell }) ∧
      (∀ (j : Nat) (r r2 : Row), t.rows[j]? = some r → t2.rows[j]? = some r2 →
        r2.cells.length = r.cells.length + 1) ∧
      (∀ cg : List Col, t.colgroup = some cg →
        t2.colgroup = some (cg.insertIdx (min (i + 1) cg.length) { styleWidth := some o.minColumnWidth })) ∧
      (∀ cg cg2 : List Col, t.colgroup = some cg → t2.colgroup = some cg2 →
        cg2.length = cg.length + 1) := by
  refine ⟨_, insertColumn_ok o t i true, ?_, ?_, ?_, ?_, ?_⟩
  · simp
  · intro j r hj
    dsimp only
    rw [List.getElem?_map, hj]
    rfl
  · intro j r r2 hj hj2
    dsimp only at hj2
    rw [List.getElem?_map, hj] at hj2
    simp only [Option.map_some', Option.some_inj] at hj2
    subst hj2
    dsimp only
    exact List.length_insertIdx _ _ (Nat.min_le_right _ _)
  · intro cg hcg
    dsimp only
    rw [hcg]
    rfl
  · intro cg cg2 hcg h2
    dsimp only at h2
    rw [hcg] at h2
    simp only [Option.map_some', Option.some_inj] at h2
    subst h2
    exact List.length_insertIdx _ _ (Nat.min_le_right _ _)

/-- Witness for C1: inserting a column after index 0 of the sample table
with a colgroup yields, at row 0, four cells with the blank cell at
position 1, and a four-entry colgroup with the 30px col at position 1. -/
theorem insertColumn_after_spec_app :
    tCg.colgroup = some (List.replicate 3 { styleWidth := some 100 }) ∧
    (insertColumn DEFAULTS tCg ((0 : Nat) : Int) true).map Table.colgroup =
      .ok (some ((List.replicate 3 ({ styleWidth := some 100 } : Col)).insertIdx 1 { styleWidth := some 30 })) := by
  constructor
  · rfl
  · obtain ⟨t2, h1, _, _, _, h5, _⟩ := insertColumn_after_spec DEFAULTS tCg 0
    rw [h1]
    dsimp [Except.map]
    rw [h5 _ rfl]
    rfl


/-- C2: during a drag, the target column width becomes exactly the
snapshot width plus dx clamped below by the minimum column width, the
target row height becomes exactly the snapshot height plus dy clamped
below by the minimum row height, and in particular a drag past the
minimum yields exactly the minimum. -/
theorem dragMove_clamps (o : Options) (d : DragState) (t : Table) (dx dy : ℚ)
    (hci : d.colIndex < d.colWidths.length)
    (hri : d.rowIndex < d.rowHeights.length)
    (hrow : d.rowIndex < t.rows.length) :
    ((d.edge = Edge.col ∨ d.edge = Edge.corner) →
      ∃ cg : List Col, (dragMove o d t dx dy).colgroup = some cg ∧
        cg[d.colIndex]? = some { styleWidth := some (max o.minColumnWidth (d.colWidths.getD d.colIndex 0 + dx)) }) ∧
    ((d.edge = Edge.row ∨ d.edge = Edge.corner) →
      ∃ r0 : Row, (dragMove o d t dx dy).rows[d.rowIndex]? = some r0 ∧
        r0.styleHeight = some (max o.minRowHeight (d.rowHeights.getD d.rowIndex 0 + dy))) ∧
    ((d.edge = Edge.col ∨ d.edge = Edge.corner) →
      d.colWidths.getD d.colIndex 0 + dx ≤ o.minColumnWidth →
      ∃ cg : List Col, (dragMove o d t dx dy).colgroup = some cg ∧
        cg[d.colIndex]? = some { styleWidth := some o.minColumnWidth }) := by
  obtain ⟨edge, ci, ri, cw, rh⟩ := d
  dsimp only at hci hri ⊢
  cases edge with
  | col =>
      unfold dragMove
      dsimp only
      simp only [reduceCtorEq, or_true, true_or, or_false, false_or, reduceIte, if_true, if_false]
      refine ⟨?_, ?_, ?_⟩
      · intro _
        obtain ⟨cg, hcg, hget, _⟩ := resizeColumnDirect_spec t ci (max o.minColumnWidth (cw.getD ci 0 + dx))
        exact ⟨cg, hcg, hget⟩
      · intro h
        exact h.elim
      · intro _ hle
        obtain ⟨cg, hcg, hget, _⟩ := resizeColumnDirect_spec t ci (max o.minColumnWidth (cw.getD ci 0 + dx))
        rw [max_eq_left hle] at hget
        exact ⟨cg, hcg, hget⟩
  | row =>
      unfold dragMove
      dsimp only
      simp only [reduceCtorEq, or_true, true_or, or_false, false_or, reduceIte, if_true, if_false]
      refine ⟨?_, ?_, ?_⟩
      · intro h
        exact h.elim
      · intro _
        have hlen : ri < (rh.set ri (max o.minRowHeight (rh.getD ri 0 + dy))).length := by
          simpa using hri
        refine ⟨_, applyRowHeights_get t _ ri hrow hlen, ?_⟩
        dsimp only
        simp [List.get_eq_getElem]
      · intro h
        exact h.elim
  | corner =>
      unfold dragMove
      dsimp only
      simp only [reduceCtorEq, or_true, true_or, or_false, false_or, reduceIte, if_true, if_false]
      refine ⟨?_, ?_, ?_⟩
      · intro _
        obtain ⟨cg, hcg, hget, _⟩ := resizeColumnDirect_spec t ci (max o.minColumnWidth (cw.getD ci 0 + dx))
        refine ⟨cg, ?_, hget⟩
        rw [applyRowHeights_colgroup]
        exact hcg
      · intro _
        have hlen : ri < (rh.set ri (max o.minRowHeight (rh.getD ri 0 + dy))).length := by
          simpa using hri
        have hrow2 : ri < (resizeColumnDirect t ci (max o.minColumnWidth (cw.getD ci 0 + dx))).rows.length := by
          rw [resizeColumnDirect_rows]
          exact hrow
        refine ⟨_, applyRowHeights_get _ _ ri hrow2 hlen, ?_⟩
        dsimp only
        simp [List.get_eq_getElem]
      · intro _ hle
        obtain ⟨cg, hcg, hget, _⟩ := resizeColumnDirect_spec t ci (max o.minColumnWidth (cw.getD ci 0 + dx))
        rw [max_eq_left hle] at hget
        refine ⟨cg, ?_, hget⟩
        rw [applyRowHeights_colgroup]
        exact hcg


/-- Witness for C2: dragging the sample corner by dx = -200, dy = 20
clamps the first column to exactly the 30px minimum and sets the first
row height to exactly 50px. -/
theorem dragMove_clamps_app :
    ((dragMove DEFAULTS dW tCg (-200) 20).colgroup.map fun cg => cg[0]?) =
      some (some ({ styleWidth := some 30 } : Col)) ∧
    ((dragMove DEFAULTS dW tCg (-200) 20).rows[0]?.map Row.styleHeight) =
      some (some 50) := by
  obtain ⟨h1, h2, h3⟩ := dragMove_clamps DEFAULTS dW tCg (-200) 20
    (by decide) (by decide) (by decide)
  constructor
  · obtain ⟨cg, hcg, hget⟩ := h3 (Or.inr rfl) (by norm_num [dW, DEFAULTS])
    simp only [dW] at hcg hget ⊢
    rw [hcg, Option.map_some', hget]
    norm_num [DEFAULTS]
  · obtain ⟨r0, hr0, hsh⟩ := h2 (Or.inr rfl)
    simp only [dW] at hr0 hsh ⊢
    rw [hr0, Option.map_some', hsh]
    norm_num [DEFAULTS]

/-- C7: when the pointer is within the handle zone of both the right and
bottom edges of a cell, detectEdge classifies the hit as a table-corner
resize exactly when the cell reaches both the last visual column and the
last row; in every other both-edges case it classifies a column
resize. -/
theorem detectEdge_corner_tiebreak (o : Options) (t : Table) (r c : Nat)
    (rect : Rect) (x y : ℚ) (theRow : Row) (td : Cell)
    (hr : t.rows[r]? = some theRow) (hc : theRow.cells[c]? = some td)
    (hx : rect.right - o.handleSize ≤ x) (hy : rect.bottom - o.handleSize ≤ y) :
    (detectEdge o t r c rect x y = some (Edge.corner, getCellColIndex theRow.cells c, r) ↔
      ((getCellColIndex theRow.cells c : ℤ) + (spanOf td : ℤ) - 1 = (getColumnCount t : ℤ) - 1 ∧
       (r : ℤ) + (rowSpanOf td : ℤ) - 1 = (t.rows.length : ℤ) - 1)) ∧
    (¬((getCellColIndex theRow.cells c : ℤ) + (spanOf td : ℤ) - 1 = (getColumnCount t : ℤ) - 1 ∧
       (r : ℤ) + (rowSpanOf td : ℤ) - 1 = (t.rows.length : ℤ) - 1) →
      detectEdge o t r c rect x y = some (Edge.col, getCellColIndex theRow.cells c + spanOf td - 1, r)) := by
  unfold detectEdge
  rw [hr]
  dsimp only
  rw [hc]
  dsimp only
  rw [decide_eq_true hx, decide_eq_true hy]
  rw [if_neg (by simp)]
  rw [if_pos ⟨rfl, rfl⟩]
  by_cases hcond : ((getCellColIndex theRow.cells c : ℤ) + (spanOf td : ℤ) - 1 = (getColumnCount t : ℤ) - 1 ∧
      (r : ℤ) + (rowSpanOf td : ℤ) - 1 = (t.rows.length : ℤ) - 1)
  · rw [if_pos ⟨decide_eq_true hcond.1, decide_eq_true hcond.2⟩]
    exact ⟨iff_of_true rfl hcond, fun hn => absurd hcond hn⟩
  · rw [if_neg (by
      rintro ⟨ha, hb⟩
      exact hcond ⟨of_decide_eq_true ha, of_decide_eq_true hb⟩)]
    exact ⟨iff_of_false (by simp) hcond, fun _ => rfl⟩

/-- Witness for C7: in the 2-by-3 sample table, a pointer in the handle
zone of both edges of the bottom-right cell is classified as a corner
hit, while on the middle cell of the top row it is classified as a
column hit. -/
theorem detectEdge_corner_tiebreak_app :
    detectEdge DEFAULTS tPlain 1 2 { right := 300, bottom := 60 } 299 59 =
      some (Edge.corner, 2, 1) ∧
    detectEdge DEFAULTS tPlain 0 1 { right := 200, bottom := 30 } 199 29 =
      some (Edge.col, 1, 0) := by
  constructor
  · obtain ⟨hiff, _⟩ := detectEdge_corner_tiebreak DEFAULTS tPlain 1 2
      { right := 300, bottom := 60 } 299 59 (sampleRow ["A2", "B2", "C2"]) (mkCell 100 "C2")
      (by rfl) (by rfl) (by norm_num [DEFAULTS]) (by norm_num [DEFAULTS])
    exact hiff.mpr (by decide)
  · obtain ⟨_, himp⟩ := detectEdge_corner_tiebreak DEFAULTS tPlain 0 1
      { right := 200, bottom := 30 } 199 29 (sampleRow ["A1", "B1", "C1"]) (mkCell 100 "B1")
      (by rfl) (by rfl) (by norm_num [DEFAULTS]) (by norm_num [DEFAULTS])
    exact himp (by decide)

/-- Counterexample for C3: on the 3-column sample table, deleteColumn at
the out-of-range index 5 leaves the table unchanged, so the visual
column count stays 3 instead of dropping to N - 1. -/
theorem deleteColumn_out_of_range_cex :
    deleteColumn DEFAULTS tPlain (5 : Int) = .ok tPlain ∧
    getColumnCount tPlain = 3 ∧ (3 : Nat) ≠ 3 - 1 := by
  refine ⟨rfl, rfl, by decide⟩

/-- C3 amended: deleteColumn is a no-op at one visual column; otherwise
it succeeds, removing the cell at the index from every row that has more
than index cells and leaving shorter rows untouched, and the visual
column count drops from N to N - 1 when the index lands inside the first
row and the first-row cells all have colSpan 1. -/
theorem deleteColumn_spec_amended (o : Options) (t : Table) (i : Nat) :
    (getColumnCount t ≤ 1 → deleteColumn o t (i : Int) = .ok t) ∧
    (2 ≤ getColumnCount t →
      ∃ t2 : Table, deleteColumn o t (i : Int) = .ok t2 ∧
        t2.rows.length = t.rows.length ∧
        (∀ (j : Nat) (r : Row), t.rows[j]? = some r →
          t2.rows[j]? = some (if i < r.cells.length then { r with cells := r.cells.eraseIdx i } else r)) ∧
        (∀ (r0 : Row) (rest : List Row), t.rows = r0 :: rest →
          i < r0.cells.length → (∀ cell ∈ r0.cells, spanOf cell = 1) →
          getColumnCount t2 = getColumnCount t - 1)) := by
  constructor
  · intro h
    exact deleteColumn_noop o t i h
  · intro h
    refine ⟨_, deleteColumn_ok o t i h, ?_, ?_, ?_⟩
    · simp
    · intro j r hj
      dsimp only
      rw [List.getElem?_map, hj]
      rfl
    · intro r0 rest hrows hi hall
      have hall2 : ∀ cell ∈ r0.cells.eraseIdx i, spanOf cell = 1 :=
        fun cell hc => hall cell ((List.eraseIdx_sublist r0.cells i).subset hc)
      unfold getColumnCount
      dsimp only
      rw [hrows]
      dsimp only [List.map_cons]
      rw [if_pos hi]
      dsimp only
      rw [sum_map_all_one spanOf _ hall2, sum_map_all_one spanOf _ hall,
        List.length_eraseIdx_of_lt hi]

/-- Witness for C3 amended: deleting column 1 of the 3-column sample
table leaves a visual column count of exactly 2. -/
theorem deleteColumn_spec_amended_app :
    (deleteColumn DEFAULTS tPlain ((1 : Nat) : Int)).map getColumnCount = .ok 2 := by
  obtain ⟨-, h2⟩ := deleteColumn_spec_amended DEFAULTS tPlain 1
  obtain ⟨t2, heq, hlen, hrows, hcount⟩ := h2 (by decide)
  rw [heq, Except.map]
  rw [hcount (sampleRow ["A1", "B1", "C1"]) _ rfl (by decide) (by decide)]
  rfl

/-- Counterexample for C4: on the 2-row sample table, deleteRow at the
out-of-range index 5 raises IndexSizeError instead of reducing the row
count to M - 1. -/
theorem deleteRow_out_of_range_cex :
    tPlain.rows.length = 2 ∧
    deleteRow tPlain (5 : Int) = .error "IndexSizeError" := ⟨rfl, rfl⟩

/-- C4 amended: deleteRow is a no-op when exactly one row remains and
reduces the row count from M to M - 1 for every in-range index; an
out-of-range index on a multi-row table raises IndexSizeError instead. -/
theorem deleteRow_spec_amended (t : Table) (i : Nat) :
    (t.rows.length = 1 → deleteRow t (i : Int) = .ok t) ∧
    (2 ≤ t.rows.length → i < t.rows.length →
      ∃ t2 : Table, deleteRow t (i : Int) = .ok t2 ∧
        t2.rows.length = t.rows.length - 1) ∧
    (2 ≤ t.rows.length → t.rows.length ≤ i →
      deleteRow t (i : Int) = .error "IndexSizeError") := by
  refine ⟨?_, ?_, ?_⟩
  · intro h
    exact deleteRow_noop t i (by omega)
  · intro h2 hi
    refine ⟨_, deleteRow_ok t i h2 hi, ?_⟩
    dsimp only
    exact List.length_eraseIdx_of_lt hi
  · intro h2 hi
    exact deleteRow_err t i h2 hi

/-- Witness for C4 amended: deleting row 0 of the 2-row sample table
leaves exactly 1 row. -/
theorem deleteRow_spec_amended_app :
    (deleteRow tPlain ((0 : Nat) : Int)).map (fun t2 => t2.rows.length) = .ok 1 := by
  obtain ⟨-, h2, -⟩ := deleteRow_spec_amended tPlain 0
  obtain ⟨t2, heq, hlen⟩ := h2 (by decide) (by decide)
  rw [heq, Except.map, hlen]
  rfl

/-- Counterexample for C6: insertColumn at the negative index -2 raises
IndexSizeError (insertCell receives -2, below the permitted range), so
the mutations do fail observably on some negative indices. -/
theorem insertColumn_negative_index_cex :
    insertColumn DEFAULTS tPlain (-2 : Int) false = .error "IndexSizeError" := rfl

/-- C6 amended: for every nonnegative index, insertColumn, insertRow and
deleteColumn never fail (invalid indices degrade to no-ops or clamp, and
inserting past the end appends); deleteRow never fails when the table
has at most one row or the index is in range — but indices below -1 in
the insert operations and out-of-range indices in deleteRow raise DOM
exceptions. -/
theorem mutations_total_amended (o : Options) (t : Table) (i : Nat) (after : Bool) :
    (∃ t2 : Table, insertColumn o t (i : Int) after = .ok t2) ∧
    (∃ t2 : Table, insertRow t (i : Int) after = .ok t2) ∧
    (∃ t2 : Table, deleteColumn o t (i : Int) = .ok t2) ∧
    (t.rows.length ≤ 1 ∨ i < t.rows.length →
      ∃ t2 : Table, deleteRow t (i : Int) = .ok t2) := by
  refine ⟨⟨_, insertColumn_ok o t i after⟩, ⟨_, insertRow_ok t i after⟩, ?_, ?_⟩
  · by_cases h : getColumnCount t ≤ 1
    · exact ⟨t, deleteColumn_noop o t i h⟩
    · exact ⟨_, deleteColumn_ok o t i (by omega)⟩
  · intro h
    by_cases h1 : t.rows.length ≤ 1
    · exact ⟨t, deleteRow_noop t i h1⟩
    · have hi : i < t.rows.length := by omega
      exact ⟨_, deleteRow_ok t i (by omega) hi⟩

/-- Witness for C6 amended: on the sample table, inserting far past the
end appends (no failure), and the guarded deleteRow at an in-range index
succeeds. -/
theorem mutations_total_amended_app :
    (insertColumn DEFAULTS tPlain ((7 : Nat) : Int) true).toOption.isSome = true ∧
    (insertRow tPlain ((7 : Nat) : Int) true).toOption.isSome = true ∧
    (deleteColumn DEFAULTS tPlain ((7 : Nat) : Int)).toOption.isSome = true ∧
    (deleteRow tPlain ((1 : Nat) : Int)).toOption.isSome = true := by
  obtain ⟨⟨a, ha⟩, ⟨b, hb⟩, ⟨c, hc⟩, hd⟩ := mutations_total_amended DEFAULTS tPlain 7 true
  obtain ⟨e, he⟩ := (mutations_total_amended DEFAULTS tPlain 1 true).2.2.2 (by right; decide)
  rw [ha, hb, hc, he]
  exact ⟨rfl, rfl, rfl, rfl⟩

theorem colgroupSync_iff (t : Table) :
    colgroupSync t ↔ (∀ cg : List Col, t.colgroup = some cg → cg.length = getColumnCount t) := by
  unfold colgroupSync
  cases hc : t.colgroup with
  | none => simp
  | some cg => simp

theorem getColumnCount_nil (t : Table) (h : t.rows = []) : getColumnCount t = 0 := by
  unfold getColumnCount
  rw [h]

theorem applyColumnWidths_count (t : Table) (ws : List ℚ) :
    getColumnCount (applyColumnWidths t ws) = getColumnCount t := rfl

theorem resizeColumnDirect_count (t : Table) (c : Nat) (w : ℚ) :
    getColumnCount (resizeColumnDirect t c w) = getColumnCount t := rfl

theorem count_insertIdx_blank (cells : List Cell) (n : Nat) (h : n ≤ cells.length) :
    ((cells.insertIdx n blankCell).map spanOf).sum = (cells.map spanOf).sum + 1 := by
  rw [map_insertIdx spanOf blankCell n cells h]
  rw [sum_insertIdx _ n _ (by simpa using h)]
  rfl

theorem getColumnCount_map_cons (t2 : Table) (f : Row → Row) (r0 : Row) (rs : List Row)
    (h : t2.rows = (r0 :: rs).map f) :
    getColumnCount t2 = ((f r0).cells.map spanOf).sum := by
  unfold getColumnCount
  rw [h, List.map_cons]


/-- Counterexample for C5: the overlay-length invariant holds on tSpan
(3 entries, 3 visual columns), but deleteColumn at index 0 removes a
colSpan-2 cell while dropping only one overlay entry, leaving 2 overlay
entries against 1 visual column — the equality is not preserved by every
overlay-touching operation. -/
theorem colgroup_sync_cex :
    colgroupSync tSpan ∧
    ((deleteColumn DEFAULTS tSpan ((0 : Nat) : Int)).map fun t2 =>
      (getColumnCount t2, t2.colgroup.map List.length)) = .ok (1, some 2) ∧
    (1 : Nat) ≠ 2 := by
  refine ⟨rfl, ?_, by decide⟩
  rw [deleteColumn_ok DEFAULTS tSpan 0 (by decide)]
  rfl

/-- C5 amended: the overlay-length equality is established by applying
the snapshot widths at drag start, and preserved by resizeColumnDirect
at a valid column index, by insertColumn at a nonnegative index on a
nonempty table, and by deleteColumn at a nonnegative index when the
first-row cells all have colSpan 1 (a spanning first-row cell breaks
it, as the counterexample shows). -/
theorem colgroup_sync_amended :
    (∀ t : Table, colgroupSync (applyColumnWidths t (getColumnWidths t))) ∧
    (∀ (t : Table) (c : Nat) (w : ℚ), colgroupSync t → c < getColumnCount t →
      colgroupSync (resizeColumnDirect t c w)) ∧
    (∀ (o : Options) (t : Table) (i : Nat) (after : Bool) (t2 : Table), t.rows ≠ [] →
      colgroupSync t → insertColumn o t (i : Int) after = .ok t2 → colgroupSync t2) ∧
    (∀ (o : Options) (t : Table) (i : Nat) (t2 : Table),
      (∀ (r0 : Row) (rest : List Row), t.rows = r0 :: rest → ∀ cell ∈ r0.cells, spanOf cell = 1) →
      colgroupSync t → deleteColumn o t (i : Int) = .ok t2 → colgroupSync t2) := by
  refine ⟨?_, ?_, ?_, ?_⟩
  · intro t
    rw [colgroupSync_iff]
    intro cg hcg
    have : (applyColumnWidths t (getColumnWidths t)).colgroup =
        some (assignWidths (syncColCount (t.colgroup.getD []) (getColumnWidths t).length) (getColumnWidths t)) := rfl
    rw [this] at hcg
    cases hcg
    rw [applyColumnWidths_count, assignWidths_length, syncColCount_length,
      getColumnWidths_length]
  · intro t c w hsync hc
    rw [colgroupSync_iff]
    intro cg hcg
    obtain ⟨cgR, hcgR, _, hlen⟩ := resizeColumnDirect_spec t c w
    rw [hcgR] at hcg
    cases hcg
    rw [resizeColumnDirect_count, hlen]
    cases hc0 : t.colgroup with
    | none =>
        dsimp only [Option.getD]
        rw [List.length_map, getColumnWidths_length]
        omega
    | some cg0 =>
        have : cg0.length = getColumnCount t := (colgroupSync_iff t).mp hsync cg0 hc0
        dsimp only [Option.getD]
        omega
  · intro o t i after t2 hne hsync heq
    rw [insertColumn_ok o t i after] at heq
    obtain rfl : _ = t2 := Except.ok.inj heq
    rw [colgroupSync_iff]
    intro cg2 hcg2
    dsimp only at hcg2
    cases hcg : t.colgroup with
    | none => rw [hcg] at hcg2; simp at hcg2
    | some cg =>
        rw [hcg] at hcg2
        simp only [Option.map_some', Option.some_inj] at hcg2
        subst hcg2
        obtain ⟨r0, rest, hrows⟩ := List.exists_cons_of_ne_nil hne
        have hclen : cg.length = getColumnCount t := (colgroupSync_iff t).mp hsync cg hcg
        rw [List.length_insertIdx _ _ (Nat.min_le_right _ _)]
        rw [getColumnCount_map_cons _ _ r0 rest (by dsimp only; rw [hrows])]
        dsimp only
        rw [count_insertIdx_blank _ _ (Nat.min_le_right _ _)]
        rw [hclen]
        unfold getColumnCount
        rw [hrows]
  · intro o t i t2 hfirst hsync heq
    by_cases hle : getColumnCount t ≤ 1
    · rw [deleteColumn_noop o t i hle] at heq
      obtain rfl : t = t2 := Except.ok.inj heq
      exact hsync
    · have h2 : 2 ≤ getColumnCount t := by omega
      rw [deleteColumn_ok o t i h2] at heq
      obtain rfl : _ = t2 := Except.ok.inj heq
      rw [colgroupSync_iff]
      intro cg2 hcg2
      dsimp only at hcg2
      cases hcg : t.colgroup with
      | none => rw [hcg] at hcg2; simp at hcg2
      | some cg =>
          rw [hcg] at hcg2
          simp only [Option.map_some', Option.some_inj] at hcg2
          have hclen : cg.length = getColumnCount t := (colgroupSync_iff t).mp hsync cg hcg
          obtain ⟨r0, rest, hrows⟩ : ∃ r0 rest, t.rows = r0 :: rest := by
            cases hr : t.rows with
            | nil => rw [getColumnCount_nil t hr] at h2; omega
            | cons a l => exact ⟨a, l, rfl⟩
          have hall : ∀ cell ∈ r0.cells, spanOf cell = 1 := hfirst r0 rest hrows
          have hcount : getColumnCount t = r0.cells.length := by
            unfold getColumnCount
            rw [hrows]
            dsimp only
            exact sum_map_all_one spanOf _ hall
          rw [getColumnCount_map_cons _ _ r0 rest (by dsimp only; rw [hrows])]
          by_cases hi : i < r0.cells.length
          · have hicg : i < cg.length := by omega
            rw [if_pos hicg] at hcg2
            subst hcg2
            rw [if_pos hi]
            dsimp only
            have hall2 : ∀ cell ∈ r0.cells.eraseIdx i, spanOf cell = 1 :=
              fun cell hcmem => hall cell ((List.eraseIdx_sublist r0.cells i).subset hcmem)
            rw [sum_map_all_one spanOf _ hall2, List.length_eraseIdx_of_lt hi,
              List.length_eraseIdx_of_lt hicg]
            omega
          · have hicg : ¬ i < cg.length := by omega
            rw [if_neg hicg] at hcg2
            subst hcg2
            rw [if_neg hi]
            rw [sum_map_all_one spanOf _ hall]
            omega

/-- Witness for C5 amended: applying the snapshot widths to the spanning
sample table establishes the overlay equality, and resizing column 1 of
the synchronised sample table preserves it. -/
theorem colgroup_sync_amended_app :
    colgroupSync (applyColumnWidths tSpan (getColumnWidths tSpan)) ∧
    colgroupSync (resizeColumnDirect tCg 1 240) := by
  obtain ⟨ha, hb, -, -⟩ := colgroup_sync_amended
  exact ⟨ha tSpan, hb tCg 1 240 rfl (by decide)⟩


/-- Counterexample for C8: a secondary-click on cell (0,0) of the sample
table opens a menu whose items array has 7 action entries (insert column
left/right, delete column, insert row above/below, delete row, delete
table), not 6. -/
theorem contextMenu_six_entries_cex :
    (showContextMenu sC8 0 0).contextMenu = some (contextMenuItems 0 0 3 2) ∧
    (contextMenuItems 0 0 3 2).length = 7 ∧ (7 : Nat) ≠ 6 := by
  exact ⟨rfl, rfl, by decide⟩

theorem runAction_total (o : Options) (s : UIState) :
    ∀ a : TAction,
      (∀ ri : Nat, a = TAction.delRow ri → s.table.rows.length ≤ 1 ∨ ri < s.table.rows.length) →
      ∃ s2 : UIState, runAction o a s = .ok s2 := by
  intro a hdr
  cases a with
  | insColBefore ci =>
      unfold runAction
      dsimp only
      rw [insertColumn_ok o s.table ci false, bind_ok]
      exact ⟨_, rfl⟩
  | insColAfter ci =>
      unfold runAction
      dsimp only
      rw [insertColumn_ok o s.table ci true, bind_ok]
      exact ⟨_, rfl⟩
  | delCol ci =>
      unfold runAction
      dsimp only
      by_cases h : getColumnCount s.table ≤ 1
      · rw [deleteColumn_noop o s.table ci h, bind_ok]
        exact ⟨_, rfl⟩
      · rw [deleteColumn_ok o s.table ci (by omega), bind_ok]
        exact ⟨_, rfl⟩
  | insRowBefore ri =>
      unfold runAction
      dsimp only
      rw [insertRow_ok s.table ri false, bind_ok]
      exact ⟨_, rfl⟩
  | insRowAfter ri =>
      unfold runAction
      dsimp only
      rw [insertRow_ok s.table ri true, bind_ok]
      exact ⟨_, rfl⟩
  | delRow ri =>
      unfold runAction
      dsimp only
      rcases hdr ri rfl with h | h
      · rw [deleteRow_noop s.table ri h, bind_ok]
        exact ⟨_, rfl⟩
      · by_cases h1 : s.table.rows.length ≤ 1
        · rw [deleteRow_noop s.table ri h1, bind_ok]
          exact ⟨_, rfl⟩
        · rw [deleteRow_ok s.table ri (by omega) h, bind_ok]
          exact ⟨_, rfl⟩
  | delTable =>
      exact ⟨_, rfl⟩

theorem invokeMenuItem_dismiss (o : Options) (it : MenuItem) (s : UIState)
    (hd : it.disabled = false) (hr : ∃ s2 : UIState, runAction o it.action s = .ok s2) :
    ∃ s3 : UIState, invokeMenuItem o it s = .ok s3 ∧ s3.contextMenu = none := by
  obtain ⟨s2, hs2⟩ := hr
  unfold invokeMenuItem
  rw [if_neg (by simp [hd]), hs2, bind_ok]
  exact ⟨_, rfl, rfl⟩

/-- C8 amended: the context menu holds exactly 7 action entries with the
delete-column entry disabled exactly when the table has at most 1 visual
column and the delete-row entry disabled exactly when it has at most 1
row; invoking any enabled entry (the clicked cell's row index being in
range) runs its action and removes the menu. -/
theorem contextMenu_spec_amended (ci ri cc rc : Nat) :
    (contextMenuItems ci ri cc rc).length = 7 ∧
    (contextMenuItems ci ri cc rc).map MenuItem.disabled =
      [false, false, decide (cc ≤ 1), false, false, decide (rc ≤ 1), false] ∧
    (contextMenuItems ci ri cc rc).map MenuItem.label =
      ["Insert Column Left", "Insert Column Right", "Delete Column",
        "Insert Row Above", "Insert Row Below", "Delete Row", "Delete Table"] ∧
    (∀ (o : Options) (s : UIState) (it : MenuItem),
      it ∈ contextMenuItems ci ri cc rc → it.disabled = false →
      ri < s.table.rows.length →
      ∃ s3 : UIState, invokeMenuItem o it s = .ok s3 ∧ s3.contextMenu = none) := by
  refine ⟨rfl, rfl, rfl, ?_⟩
  intro o s it hmem hdis hri
  simp only [contextMenuItems, List.mem_cons, List.not_mem_nil, or_false] at hmem
  rcases hmem with h | h | h | h | h | h | h <;> subst h <;>
    exact invokeMenuItem_dismiss o _ s hdis
      (runAction_total o s _ (fun ri2 heq => by
        first
        | exact TAction.noConfusion heq
        | (cases heq; exact Or.inr hri)))

/-- Witness for C8 amended: in the menu opened on the sample table, the
enabled Delete Row entry runs and closes the menu. -/
theorem contextMenu_spec_amended_app :
    (contextMenuItems 0 0 3 2).length = 7 ∧
    ((invokeMenuItem DEFAULTS
        { label := "Delete Row", action := .delRow 0, dividerAfter := true, disabled := false }
        sC8).map fun s3 => s3.contextMenu) = .ok none := by
  obtain ⟨hlen, -, -, h4⟩ := contextMenu_spec_amended 0 0 3 2
  obtain ⟨s3, hinv, hnone⟩ := h4 DEFAULTS sC8
    { label := "Delete Row", action := .delRow 0, dividerAfter := true, disabled := false }
    (by decide) (by decide) (by decide)
  refine ⟨hlen, ?_⟩
  rw [hinv, Except.map, hnone]

/-- C9: no behaviour of the module depends on minTableWidth or
minTableHeight: two configurations agreeing on handleSize,
minColumnWidth and minRowHeight produce identical results for edge
detection, drag resizing, structural mutation and menu actions (the
remaining operations take no options at all). -/
theorem minTable_options_no_effect (o1 o2 : Options)
    (h1 : o1.handleSize = o2.handleSize)
    (h2 : o1.minColumnWidth = o2.minColumnWidth)
    (h3 : o1.minRowHeight = o2.minRowHeight) :
    (∀ (t : Table) (r c : Nat) (rect : Rect) (x y : ℚ),
      detectEdge o1 t r c rect x y = detectEdge o2 t r c rect x y) ∧
    (∀ (d : DragState) (t : Table) (dx dy : ℚ),
      dragMove o1 d t dx dy = dragMove o2 d t dx dy) ∧
    (∀ (t : Table) (i : Int) (after : Bool),
      insertColumn o1 t i after = insertColumn o2 t i after) ∧
    (∀ (t : Table) (i : Int), deleteColumn o1 t i = deleteColumn o2 t i) ∧
    (∀ (a : TAction) (s : UIState), runAction o1 a s = runAction o2 a s) ∧
    (∀ (it : MenuItem) (s : UIState), invokeMenuItem o1 it s = invokeMenuItem o2 it s) := by
  obtain ⟨a1, b1, c1, d1, e1⟩ := o1
  obtain ⟨a2, b2, c2, d2, e2⟩ := o2
  dsimp only at h1 h2 h3
  subst h1
  subst h2
  subst h3
  exact ⟨fun _ _ _ _ _ _ => rfl, fun _ _ _ _ => rfl, fun _ _ _ => rfl,
    fun _ _ => rfl, fun _ _ => rfl, fun _ _ => rfl⟩


/-- Witness for C9: with the table minimums changed, a concrete drag and
a concrete column insertion give results identical to the defaults. -/
theorem minTable_options_no_effect_app :
    dragMove DEFAULTS dW tCg 5 5 = dragMove oTweaked dW tCg 5 5 ∧
    insertColumn DEFAULTS tPlain (0 : Int) true = insertColumn oTweaked tPlain (0 : Int) true := by
  obtain ⟨-, hdm, hic, -, -, -⟩ := minTable_options_no_effect DEFAULTS oTweaked rfl rfl rfl
  exact ⟨hdm dW tCg 5 5, hic tPlain 0 true⟩

/-- C10: insertNewTable is a no-op when the host reports no selection;
with a selection it pastes at the selection index the markup of a table
of exactly rows-by-cols empty cells (the markup is rows repetitions of a
row block holding cols repetitions of the empty cell block), the
arguments defaulting to 3 by 3. -/
theorem insertNewTable_spec (rows cols : Nat) :
    insertNewTable none rows cols = none ∧
    (∀ i : Nat, insertNewTable (some i) rows cols = some (i, tableHTML rows cols)) ∧
    tableHTML rows cols =
      "<table><tbody>" ++ String.join (List.replicate rows (rowHTML cols)) ++ "</tbody></table>" ∧
    rowHTML cols = "<tr>" ++ String.join (List.replicate cols cellHTML) ++ "</tr>" ∧
    cellHTML = "<td><br></td>" ∧
    (List.replicate rows (rowHTML cols)).length = rows ∧
    ((List.replicate rows (rowHTML cols)).map fun _ => (List.replicate cols cellHTML).length).sum =
      rows * cols ∧
    (∀ sel : Option Nat, insertNewTable sel = insertNewTable sel 3 3) := by
  refine ⟨rfl, fun i => rfl, rfl, rfl, rfl, by simp, ?_, fun sel => rfl⟩
  simp [List.sum_replicate, smul_eq_mul]

/-- Witness for C10: with selection index 4, a 2-by-4 insertion pastes at
index 4 and the markup counts 2 times 4 cells. -/
theorem insertNewTable_spec_app :
    insertNewTable (some 4) 2 4 = some (4, tableHTML 2 4) ∧
    ((List.replicate 2 (rowHTML 4)).map fun _ => (List.replicate 4 cellHTML).length).sum = 8 := by
  obtain ⟨-, h2, -, -, -, -, h7, -⟩ := insertNewTable_spec 2 4
  exact ⟨h2 4, h7⟩
